import Mathlib

/-!
Shallow embedding of the polls application core (src/polls/views.py) and its
data model (Question, Choice records backed by a relational store), together
with proofs about the list, detail, results and vote operations.
-/

namespace Polls

/-- A Question record: unique identifier, text, publication timestamp
(modelled as an integer timestamp). -/
structure Question where
  id : Nat
  question_text : String
  pub_date : Int
deriving Repr, DecidableEq

/-- A Choice record: unique identifier, owning Question reference
(many-to-one), text, and a non-negative vote counter. -/
structure Choice where
  id : Nat
  question_id : Nat
  choice_text : String
  votes : Nat
deriving Repr, DecidableEq

/-- The data store: the sequence of Question rows and the sequence of
Choice rows, in store (insertion) order. -/
structure Store where
  questions : List Question
  choices : List Choice
deriving Repr, DecidableEq

/-- Number of Choice rows owned by the question with identifier `qid`. -/
def choice_count (s : Store) (qid : Nat) : Nat :=
  (s.choices.filter (fun c => c.question_id == qid)).length

/-- The condition enforced by `.exclude(choice=None)` on the Question
queryset: the question owns at least one Choice row. -/
def has_choice (s : Store) (qid : Nat) : Bool :=
  s.choices.any (fun c => c.question_id == qid)

/-- The visibility predicate applied by the index queryset chain
`filter(pub_date__lte=timezone.now()).exclude(choice=None)`: published no
later than `now` and owning at least one choice. -/
def visibleQ (s : Store) (now : Int) (q : Question) : Bool :=
  decide (q.pub_date ≤ now) && has_choice s q.id

/-- The ordering key of `order_by(-pub_date)`: descending publication
timestamp. No further ordering key appears in the source. -/
def pubDesc (a b : Question) : Prop :=
  b.pub_date ≤ a.pub_date

instance : DecidableRel pubDesc := fun a b => Int.decLe b.pub_date a.pub_date

instance : IsTotal Question pubDesc := ⟨fun a b => Int.le_total b.pub_date a.pub_date⟩

instance : IsTrans Question pubDesc := ⟨fun _ _ _ h1 h2 => le_trans h2 h1⟩

/-- The Question rows surviving the filter chain
`Question.objects.filter(pub_date__lte=now).exclude(choice=None)`,
still in store order. -/
def published_with_choices (s : Store) (now : Int) : List Question :=
  (s.questions.filter (fun q => decide (q.pub_date ≤ now))).filter
    (fun q => has_choice s q.id)

/-- The filtered rows after `order_by(-pub_date)`, modelled as a stable
sort of the store order by descending publication timestamp. -/
def index_sorted (s : Store) (now : Int) : List Question :=
  List.insertionSort pubDesc (published_with_choices s now)

namespace IndexView

/-- IndexView.get_queryset: the last five published questions, excluding
future-dated and choiceless ones, ordered by descending publication
timestamp; the trailing slice `[:5]` keeps the first five rows. -/
def get_queryset (s : Store) (now : Int) : List Question :=
  (index_sorted s now).take 5

end IndexView

namespace DetailView

/-- DetailView.get_queryset:
`Question.objects.filter(pub_date__lte=now).exclude(choice=None)`. -/
def get_queryset (s : Store) (now : Int) : List Question :=
  published_with_choices s now

end DetailView

/-- Outcome of a detail (get-by-id) request: the rendered question, or a
client-facing Not-Found (404) response. -/
inductive DetailResponse where
  | ok (q : Question)
  | notFound
deriving Repr, DecidableEq

/-- The detail operation: generic.DetailView resolves the primary key
against the queryset of DetailView.get_queryset and raises Http404 when no
row matches. -/
def detail (s : Store) (now : Int) (qid : Nat) : DetailResponse :=
  match (DetailView.get_queryset s now).find? (fun q => q.id == qid) with
  | some q => DetailResponse.ok q
  | none => DetailResponse.notFound

namespace ResultsView

/-- ResultsView.get_queryset:
`Question.objects.filter(pub_date__lte=now).exclue(choice=None)`.
The filter call builds a queryset, but `exclue` is not a queryset method,
so the attribute access raises AttributeError before any row set is
produced; the method never returns a queryset. -/
def get_queryset (_s : Store) (_now : Int) : Except String (List Question) :=
  Except.error "AttributeError: QuerySet object has no attribute exclue"

end ResultsView

/-- Outcome of a results request: rendered question, Not-Found, or an
uncaught exception surfaced as a generic server error. -/
inductive ResultsResponse where
  | ok (q : Question)
  | notFound
  | serverError (msg : String)
deriving Repr, DecidableEq

/-- The results operation: generic.DetailView resolves the primary key
against ResultsView.get_queryset; an exception thrown by get_queryset
propagates as a server error. -/
def results (s : Store) (now : Int) (qid : Nat) : ResultsResponse :=
  match ResultsView.get_queryset s now with
  | Except.error e => ResultsResponse.serverError e
  | Except.ok qs =>
    match qs.find? (fun q => q.id == qid) with
    | some q => ResultsResponse.ok q
    | none => ResultsResponse.notFound

/-- Outcome of a vote request: Http404 from get_object_or_404, the detail
template re-rendered with the error message, a redirect to the results
view for the question, or an uncaught exception. -/
inductive VoteResponse where
  | notFound
  | renderError (qid : Nat)
  | redirect (qid : Nat)
  | serverError
deriving Repr, DecidableEq

/-- The submitted form value `request.POST[choice]`:
`none` when the field is absent (raising KeyError on access),
`some none` when present but not a well-formed integer key (the pk lookup
raises ValueError), `some (some cid)` when it parses to the key `cid`. -/
def PostChoice : Type := Option (Option Nat)

/-- The store after `question.choice_set.filter(pk=cid).update(votes=F(votes) + 1)`:
every Choice row owned by question `qid` with primary key `cid` has its
counter replaced by its current value plus one, in one relative update at
the store; all other rows are untouched. -/
def choice_set_filter_update (s : Store) (qid cid : Nat) : Store :=
  { s with
    choices := s.choices.map (fun c =>
      if c.question_id == qid && c.id == cid then
        { c with votes := c.votes + 1 }
      else c) }

/-- The vote handler, returning its response and the store after the
request.
The question is resolved with get_object_or_404; a missing form field
raises KeyError, which the handler catches and answers with the detail
template plus the error message; a malformed key raises ValueError, which
the except clause does not list, so it escapes as a server error;
otherwise `choice_set.filter(pk=cid)` is a plain row set (it cannot raise
Choice.DoesNotExist) and the handler updates it and redirects to the
results view. -/
def vote (s : Store) (qid : Nat) (post_choice : PostChoice) : VoteResponse × Store :=
  match s.questions.find? (fun q => q.id == qid) with
  | none => (VoteResponse.notFound, s)
  | some q =>
    match post_choice with
    | none => (VoteResponse.renderError q.id, s)
    | some none => (VoteResponse.serverError, s)
    | some (some cid) => (VoteResponse.redirect q.id, choice_set_filter_update s q.id cid)

/-- A request handled by this core. -/
inductive Request where
  | index
  | detailReq (qid : Nat)
  | resultsReq (qid : Nat)
  | voteReq (qid : Nat) (post_choice : PostChoice)

/-- The response to a request, tagged by operation. -/
inductive Response where
  | indexPage (qs : List Question)
  | detailResp (r : DetailResponse)
  | resultsResp (r : ResultsResponse)
  | voteResp (r : VoteResponse)

/-- One request handled against the store at time `now`: the response and
the store afterwards.  The three read operations leave the store as they
found it; only the vote handler writes. -/
def handle (s : Store) (now : Int) : Request → Response × Store
  | Request.index => (Response.indexPage (IndexView.get_queryset s now), s)
  | Request.detailReq qid => (Response.detailResp (detail s now qid), s)
  | Request.resultsReq qid => (Response.resultsResp (results s now qid), s)
  | Request.voteReq qid post_choice =>
    let r := vote s qid post_choice
    (Response.voteResp r.1, r.2)

/-- A sequence of vote requests against question `qid`, each carrying a
well-formed submitted choice key, handled one after the other; the store
threads through and each response is discarded. -/
def runVotes (qid : Nat) : Store → List Nat → Store
  | s, [] => s
  | s, cid :: rest => runVotes qid ((vote s qid (some (some cid))).2) rest

/-! Concrete fixtures used by counterexamples and witnesses. -/

/-- A question published at time 0 with identifier 1. -/
def qA : Question := { id := 1, question_text := "A", pub_date := 0 }

/-- A question published at time 0 with identifier 2. -/
def qB : Question := { id := 2, question_text := "B", pub_date := 0 }

/-- A future-dated question (publication time 10). -/
def qF : Question := { id := 3, question_text := "F", pub_date := 10 }

/-- The single choice of question 1. -/
def cA : Choice := { id := 1, question_id := 1, choice_text := "cA", votes := 0 }

/-- The single choice of question 2. -/
def cB : Choice := { id := 2, question_id := 2, choice_text := "cB", votes := 0 }

/-- A store with two visible questions sharing a publication timestamp. -/
def tieStore : Store := { questions := [qA, qB], choices := [cA, cB] }

/-- A store whose only question is future-dated at time 0. -/
def futureStore : Store :=
  { questions := [qF],
    choices := [{ id := 3, question_id := 3, choice_text := "cF", votes := 0 }] }

/-! Helper lemmas about the query side. -/

/-- The exclude-choiceless test succeeds exactly when the choice count is
positive. -/
theorem has_choice_iff (s : Store) (qid : Nat) :
    has_choice s qid = true ↔ 0 < choice_count s qid := by
  rw [choice_count, ← List.countP_eq_length_filter]
  simp [has_choice, List.any_eq_true, List.countP_pos_iff]

/-- Membership in the filtered question rows is membership in the store
together with visibility. -/
theorem mem_published_iff (s : Store) (now : Int) (q : Question) :
    q ∈ published_with_choices s now ↔ q ∈ s.questions ∧ visibleQ s now q = true := by
  simp only [published_with_choices, visibleQ, List.mem_filter, Bool.and_eq_true,
    decide_eq_true_eq]
  tauto

/-- Membership in the sorted rows is membership in the filtered rows. -/
theorem mem_index_sorted_iff (s : Store) (now : Int) (q : Question) :
    q ∈ index_sorted s now ↔ q ∈ published_with_choices s now :=
  List.mem_insertionSort pubDesc

/-- Every question the list operation returns is a visible member of the
store. -/
theorem mem_index_queryset (s : Store) (now : Int) (q : Question)
    (h : q ∈ IndexView.get_queryset s now) :
    q ∈ s.questions ∧ visibleQ s now q = true := by
  have h1 : q ∈ index_sorted s now := (List.take_sublist 5 _).subset h
  exact (mem_published_iff s now q).mp ((mem_index_sorted_iff s now q).mp h1)

/-- C1: the visibility predicate applied by the list operation holds exactly
when the publication timestamp is at most the current time and the question
owns at least one choice; every question the list operation returns
satisfies it, so a question failing either conjunct is never returned. -/
theorem C1_visibility (s : Store) (now : Int) (q : Question) :
    (visibleQ s now q = true ↔ q.pub_date ≤ now ∧ 0 < choice_count s q.id) ∧
    (q ∈ IndexView.get_queryset s now → visibleQ s now q = true) := by
  constructor
  · simp [visibleQ, Bool.and_eq_true, has_choice_iff]
  · intro hmem
    exact (mem_index_queryset s now q hmem).2

/-- Witness for C1 at a concrete store: question 1 is in the list and the
predicate evaluates as the conjunction states. -/
theorem C1_visibility_witness :
    visibleQ tieStore 0 qA = true ∧ (qA.pub_date ≤ 0 ∧ 0 < choice_count tieStore qA.id) :=
  ⟨(C1_visibility tieStore 0 qA).2 (by decide),
    (C1_visibility tieStore 0 qA).1.mp ((C1_visibility tieStore 0 qA).2 (by decide))⟩

/-- C5: the list operation returns at most five rows, sorted by descending
publication timestamp, all of them visible, and returns the empty sequence
when no question in the store is visible. -/
theorem C5_index_shape (s : Store) (now : Int) :
    (IndexView.get_queryset s now).length ≤ 5 ∧
    List.Sorted pubDesc (IndexView.get_queryset s now) ∧
    (∀ q ∈ IndexView.get_queryset s now, visibleQ s now q = true) ∧
    ((∀ q ∈ s.questions, visibleQ s now q = false) →
      IndexView.get_queryset s now = []) := by
  refine ⟨List.length_take_le 5 _, ?_, ?_, ?_⟩
  · exact List.Pairwise.sublist (List.take_sublist 5 _)
      (List.sorted_insertionSort pubDesc (published_with_choices s now))
  · intro q hq
    exact (mem_index_queryset s now q hq).2
  · intro h
    have hnil : published_with_choices s now = [] := by
      rw [List.eq_nil_iff_forall_not_mem]
      intro q hq
      have hmem := (mem_published_iff s now q).mp hq
      rw [h q hmem.1] at hmem
      exact Bool.false_ne_true hmem.2
    simp [IndexView.get_queryset, index_sorted, hnil]

/-- Witness for C5 at a concrete store whose only question is future-dated:
the list operation returns the empty sequence. -/
theorem C5_index_shape_witness : IndexView.get_queryset futureStore 0 = [] :=
  (C5_index_shape futureStore 0).2.2.2 (by decide)

/-- Counterexample to C6 as stated: in a store holding question 1 before
question 2 with equal publication timestamps, both visible, the list
operation returns the smaller identifier first, not the larger. -/
theorem C6_counterexample :
    qA.pub_date = qB.pub_date ∧ qA.id < qB.id ∧
    IndexView.get_queryset tieStore 0 = [qA, qB] ∧
    IndexView.get_queryset tieStore 0 ≠ [qB, qA] := by
  refine ⟨rfl, by decide, by decide, by decide⟩

/-- C6 amended: the code orders only by publication timestamp descending,
with no identifier tie-break; the sort is stable, so two visible questions
with equal timestamps keep their relative store order in the sorted row
sequence the list is cut from. -/
theorem C6_tie_order_stable (s : Store) (now : Int) (q1 q2 : Question)
    (hsub : [q1, q2].Sublist (published_with_choices s now))
    (heq : q1.pub_date = q2.pub_date) :
    [q1, q2].Sublist (index_sorted s now) :=
  List.pair_sublist_insertionSort heq.ge hsub

/-- Witness for the amended C6 at the tie store: questions 1 and 2 keep
their store order in the sorted sequence. -/
theorem C6_tie_order_stable_witness : [qA, qB].Sublist (index_sorted tieStore 0) :=
  C6_tie_order_stable tieStore 0 qA qB (List.Sublist.refl [qA, qB]) rfl

/-- C7: with unique question identifiers, the detail operation returns
exactly the visible question bearing the requested identifier, and returns
Not-Found whenever every question bearing that identifier (possibly none)
is invisible. -/
theorem C7_detail_lookup (s : Store) (now : Int) (qid : Nat)
    (huniq : (s.questions.map Question.id).Nodup) :
    (∀ q, detail s now qid = DetailResponse.ok q →
      q ∈ s.questions ∧ q.id = qid ∧ visibleQ s now q = true) ∧
    (∀ q, q ∈ s.questions → q.id = qid → visibleQ s now q = true →
      detail s now qid = DetailResponse.ok q) ∧
    ((∀ q ∈ s.questions, q.id = qid → visibleQ s now q = false) →
      detail s now qid = DetailResponse.notFound) := by
  refine ⟨?_, ?_, ?_⟩
  · intro q hq
    rw [detail] at hq
    cases hfind : (DetailView.get_queryset s now).find? (fun x => x.id == qid) with
    | none => rw [hfind] at hq; exact absurd hq (by simp)
    | some q' =>
      rw [hfind] at hq
      have hq' : q' = q := by cases hq; rfl
      subst hq'
      have hid : q'.id = qid := by
        have := List.find?_some hfind
        simpa using this
      have hmem := (mem_published_iff s now q').mp (List.mem_of_find?_eq_some hfind)
      exact ⟨hmem.1, hid, hmem.2⟩
  · intro q hqs hqid hvis
    have hpub : q ∈ published_with_choices s now :=
      (mem_published_iff s now q).mpr ⟨hqs, hvis⟩
    rw [detail]
    cases hfind : (DetailView.get_queryset s now).find? (fun x => x.id == qid) with
    | none =>
      rw [List.find?_eq_none] at hfind
      exact absurd (by simpa using hqid) (hfind q hpub)
    | some q' =>
      have hid' : q'.id = qid := by
        have := List.find?_some hfind
        simpa using this
      have hmem' := (mem_published_iff s now q').mp (List.mem_of_find?_eq_some hfind)
      have : q' = q :=
        List.inj_on_of_nodup_map huniq hmem'.1 hqs (by rw [hid', hqid])
      rw [this]
  · intro h
    rw [detail]
    have hfind : (DetailView.get_queryset s now).find? (fun x => x.id == qid) = none := by
      rw [List.find?_eq_none]
      intro q hq hbeq
      have hmem := (mem_published_iff s now q).mp hq
      have hid : q.id = qid := by simpa using hbeq
      rw [h q hmem.1 hid] at hmem
      exact Bool.false_ne_true hmem.2
    rw [hfind]

/-- Witness for C7 at the tie store: the detail request for identifier 1
returns question 1. -/
theorem C7_detail_lookup_witness : detail tieStore 0 1 = DetailResponse.ok qA :=
  (C7_detail_lookup tieStore 0 1 (by decide)).2.1 qA (by decide) rfl (by decide)

/-- C3 evidence: every results request ends in the AttributeError raised by
the misspelled queryset call, so results and detail do not apply the same
rule: at the tie store, the detail request for identifier 1 succeeds while
the results request for the same identifier is a server error. -/
theorem C3_results_always_error :
    (∀ (s : Store) (now : Int) (qid : Nat),
      results s now qid =
        ResultsResponse.serverError "AttributeError: QuerySet object has no attribute exclue") ∧
    detail tieStore 0 1 = DetailResponse.ok qA ∧
    results tieStore 0 1 ≠ ResultsResponse.ok qA :=
  ⟨fun _ _ _ => rfl, by decide, by decide⟩

/-- C8: the vote handler answers Not-Found exactly when no question in the
store bears the requested identifier, whatever the submitted form value;
in particular any existing question, visible or not, gets past question
resolution. -/
theorem C8_vote_notFound_iff (s : Store) (qid : Nat) (post_choice : PostChoice) :
    (vote s qid post_choice).1 = VoteResponse.notFound ↔
      ∀ q ∈ s.questions, q.id ≠ qid := by
  cases hfind : s.questions.find? (fun q => q.id == qid) with
  | none =>
    simp only [vote, hfind]
    rw [List.find?_eq_none] at hfind
    constructor
    · intro _ q hq hqe
      exact hfind q hq (by simpa using hqe)
    · intro _
      trivial
  | some q =>
    have hq := List.mem_of_find?_eq_some hfind
    have hid : q.id = qid := by simpa using List.find?_some hfind
    have hne : ¬ ∀ q' ∈ s.questions, q'.id ≠ qid := fun h => h q hq hid
    cases post_choice with
    | none => simp [vote, hfind, hne]
    | some oc =>
      cases oc with
      | none => simp [vote, hfind, hne]
      | some cid => simp [vote, hfind, hne]

/-- C2 evidence at a concrete store: question 1 exists and owns only choice
1, choice 2 belongs to question 2.  Only the missing form field reaches the
validation outcome; a malformed field escapes as an uncaught error, and a
well-formed key that belongs to no choice of the question is answered with
a redirect.  In each of the three cases every vote counter is unchanged. -/
theorem C2_invalid_choice_behavior :
    vote tieStore 1 none = (VoteResponse.renderError 1, tieStore) ∧
    vote tieStore 1 (some none) = (VoteResponse.serverError, tieStore) ∧
    vote tieStore 1 (some (some 2)) = (VoteResponse.redirect 1, tieStore) :=
  ⟨by decide, by decide, by decide⟩

/-- C4: when the question resolves and the submitted key is the identifier
of one of its choices (choice identifiers unique), the handler redirects to
the results view of the question, leaves the question rows alone, and the
choice rows afterwards are the old rows with exactly that choice carrying a
counter one higher. -/
theorem C4_vote_success (s : Store) (qid cid : Nat) (q : Question) (c : Choice)
    (hq : s.questions.find? (fun x => x.id == qid) = some q)
    (hc : c ∈ s.choices) (hcq : c.question_id = q.id) (hcid : c.id = cid)
    (huniq : (s.choices.map Choice.id).Nodup) :
    (vote s qid (some (some cid))).1 = VoteResponse.redirect q.id ∧
    (vote s qid (some (some cid))).2.questions = s.questions ∧
    (vote s qid (some (some cid))).2.choices =
      s.choices.map (fun x => if x = c then { x with votes := x.votes + 1 } else x) := by
  have hv : vote s qid (some (some cid)) =
      (VoteResponse.redirect q.id, choice_set_filter_update s q.id cid) := by
    simp [vote, hq]
  rw [hv]
  refine ⟨rfl, rfl, ?_⟩
  show (choice_set_filter_update s q.id cid).choices = _
  rw [choice_set_filter_update]
  apply List.map_congr_left
  intro x hx
  by_cases hxc : x = c
  · subst hxc
    simp [hcq, hcid]
  · have hcond : ¬ (x.question_id == q.id && x.id == cid) = true := by
      intro hcontra
      rw [Bool.and_eq_true] at hcontra
      have hxid : x.id = c.id := by
        rw [hcid]
        simpa using hcontra.2
      exact hxc (List.inj_on_of_nodup_map huniq hx hc hxid)
    simp [hcond, hxc]

/-- Witness for C4 at the tie store: submitting the key of choice 1 for
question 1 redirects to the results of question 1 and raises exactly that
counter. -/
theorem C4_vote_success_witness :
    (vote tieStore 1 (some (some 1))).1 = VoteResponse.redirect qA.id ∧
    (vote tieStore 1 (some (some 1))).2.questions = tieStore.questions ∧
    (vote tieStore 1 (some (some 1))).2.choices =
      tieStore.choices.map (fun x => if x = cA then { x with votes := x.votes + 1 } else x) :=
  C4_vote_success tieStore 1 1 qA cA (by decide) (by decide) rfl rfl (by decide)

/-- Handling a vote request never changes the question rows. -/
theorem vote_questions_eq (s : Store) (qid : Nat) (pc : PostChoice) :
    (vote s qid pc).2.questions = s.questions := by
  cases hfind : s.questions.find? (fun q => q.id == qid) with
  | none => simp [vote, hfind]
  | some q =>
    cases pc with
    | none => simp [vote, hfind]
    | some oc =>
      cases oc with
      | none => simp [vote, hfind]
      | some cid => simp [vote, hfind, choice_set_filter_update]

/-- One well-formed vote submission, observed at a fixed choice key: the
first row bearing that key keeps every field and gains one vote exactly
when the submission carries its key. -/
theorem vote_step_find (s : Store) (qid x cid0 : Nat) (q : Question) (c : Choice)
    (hq : s.questions.find? (fun y => y.id == qid) = some q)
    (hc : s.choices.find? (fun ch => ch.id == cid0) = some c)
    (hcq : c.question_id = q.id) (hid : c.id = cid0) :
    ((vote s qid (some (some x))).2).choices.find? (fun ch => ch.id == cid0) =
      some (if cid0 = x then { c with votes := c.votes + 1 } else c) := by
  have hv : (vote s qid (some (some x))).2 = choice_set_filter_update s q.id x := by
    simp [vote, hq]
  rw [hv, choice_set_filter_update]
  rw [List.find?_map]
  have hpf : ((fun ch => ch.id == cid0) ∘ (fun ch : Choice =>
      if (ch.question_id == q.id && ch.id == x) = true then
        { ch with votes := ch.votes + 1 } else ch)) = fun ch => ch.id == cid0 := by
    funext ch
    by_cases h : (ch.question_id == q.id && ch.id == x) = true
    · simp [Function.comp, h]
    · simp [Function.comp, h]
  rw [hpf, hc]
  simp only [Option.map_some']
  congr 1
  by_cases hx : cid0 = x
  · rw [if_pos hx]
    have : (c.question_id == q.id && c.id == x) = true := by
      rw [Bool.and_eq_true]
      exact ⟨by simpa using hcq, by simp [hid, hx]⟩
    rw [if_pos this]
  · rw [if_neg hx]
    have : ¬ (c.question_id == q.id && c.id == x) = true := by
      rw [Bool.and_eq_true]
      intro hcontra
      exact hx (by rw [← hid]; simpa using hcontra.2)
    rw [if_neg this]

/-- Any run of well-formed vote submissions on question `qid`, observed at a
fixed choice key: the row bearing that key gains exactly one vote per
submission carrying its key. -/
theorem runVotes_find (qid : Nat) (q : Question) (cids : List Nat) :
    ∀ (s : Store) (c : Choice) (cid0 : Nat),
      c.id = cid0 →
      s.questions.find? (fun y => y.id == qid) = some q →
      s.choices.find? (fun ch => ch.id == cid0) = some c →
      c.question_id = q.id →
      (runVotes qid s cids).choices.find? (fun ch => ch.id == cid0) =
        some { c with votes := c.votes + cids.count cid0 } := by
  induction cids with
  | nil =>
    intro s c cid0 _ _ hc _
    simpa using hc
  | cons x rest ih =>
    intro s c cid0 hid hq hc hcq
    have hstep := vote_step_find s qid x cid0 q c hq hc hcq hid
    have hq1 : ((vote s qid (some (some x))).2).questions.find?
        (fun y => y.id == qid) = some q := by
      rw [vote_questions_eq]
      exact hq
    show (runVotes qid ((vote s qid (some (some x))).2) rest).choices.find?
        (fun ch => ch.id == cid0) = _
    by_cases hx : cid0 = x
    · rw [if_pos hx] at hstep
      have hrec := ih ((vote s qid (some (some x))).2)
        { c with votes := c.votes + 1 } cid0 hid hq1 hstep hcq
      rw [hrec]
      congr 2
      rw [List.count_cons]
      simp [hx]
      omega
    · rw [if_neg hx] at hstep
      have hrec := ih ((vote s qid (some (some x))).2) c cid0 hid hq1 hstep hcq
      rw [hrec]
      congr 2
      rw [List.count_cons]
      have hxf : (x == cid0) = false := by
        simp only [beq_eq_false_iff_ne, ne_eq]
        exact fun h => hx h.symm
      simp [hxf]

/-- C9: for any sequence of well-formed vote submissions on question `qid`
(votes for the observed choice arbitrarily interleaved with votes for other
choices), the observed choice ends with its counter raised by exactly the
number of submissions bearing its key. -/
theorem C9_vote_counting (s : Store) (qid : Nat) (q : Question) (c : Choice)
    (cids : List Nat)
    (hq : s.questions.find? (fun y => y.id == qid) = some q)
    (hc : s.choices.find? (fun ch => ch.id == c.id) = some c)
    (hcq : c.question_id = q.id) :
    (runVotes qid s cids).choices.find? (fun ch => ch.id == c.id) =
      some { c with votes := c.votes + cids.count c.id } :=
  runVotes_find qid q cids s c c.id rfl hq hc hcq

/-- Witness for C9 at the tie store: two submissions for choice 1 of
question 1, interleaved with one submission carrying key 2, leave choice 1
with two more votes. -/
theorem C9_vote_counting_witness :
    (runVotes 1 tieStore [1, 2, 1]).choices.find? (fun ch => ch.id == cA.id) =
      some { cA with votes := cA.votes + [1, 2, 1].count cA.id } :=
  C9_vote_counting tieStore 1 qA cA [1, 2, 1] (by decide) (by decide) rfl

/-- C10: handling any request leaves the question rows unchanged, keeps the
choice rows aligned one-to-one with identifier, owning question and text
intact, and changes a counter only by the single increment the vote
handler applies to the rows its filter matches. -/
theorem C10_frame (s : Store) (now : Int) (r : Request) :
    (handle s now r).2.questions = s.questions ∧
    List.Forall₂ (fun old new =>
      new.id = old.id ∧ new.question_id = old.question_id ∧
      new.choice_text = old.choice_text ∧
      (new.votes = old.votes ∨
        (new.votes = old.votes + 1 ∧ ∃ qid cid q,
          r = Request.voteReq qid (some (some cid)) ∧
          s.questions.find? (fun y => y.id == qid) = some q ∧
          old.question_id = q.id ∧ old.id = cid)))
      s.choices (handle s now r).2.choices := by
  have hsame : ∀ (s2 : Store), s2 = s →
      List.Forall₂ (fun old new =>
        new.id = old.id ∧ new.question_id = old.question_id ∧
        new.choice_text = old.choice_text ∧
        (new.votes = old.votes ∨
          (new.votes = old.votes + 1 ∧ ∃ qid cid q,
            r = Request.voteReq qid (some (some cid)) ∧
            s.questions.find? (fun y => y.id == qid) = some q ∧
            old.question_id = q.id ∧ old.id = cid)))
        s.choices s2.choices := by
    intro s2 h
    subst h
    exact List.forall₂_same.mpr (fun ch _ => ⟨rfl, rfl, rfl, Or.inl rfl⟩)
  cases r with
  | index => exact ⟨rfl, hsame s rfl⟩
  | detailReq qid => exact ⟨rfl, hsame s rfl⟩
  | resultsReq qid => exact ⟨rfl, hsame s rfl⟩
  | voteReq qid pc =>
    cases hfind : s.questions.find? (fun y => y.id == qid) with
    | none =>
      have h2 : (handle s now (Request.voteReq qid pc)).2 = s := by
        simp [handle, vote, hfind]
      exact ⟨by rw [h2], hsame _ h2⟩
    | some q =>
      cases pc with
      | none =>
        have h2 : (handle s now (Request.voteReq qid none)).2 = s := by
          simp [handle, vote, hfind]
        exact ⟨by rw [h2], hsame _ h2⟩
      | some oc =>
        cases oc with
        | none =>
          have h2 : (handle s now (Request.voteReq qid (some none))).2 = s := by
            simp [handle, vote, hfind]
          exact ⟨by rw [h2], hsame _ h2⟩
        | some cid =>
          have h2 : (handle s now (Request.voteReq qid (some (some cid)))).2 =
              choice_set_filter_update s q.id cid := by
            simp [handle, vote, hfind]
          rw [h2]
          refine ⟨rfl, ?_⟩
          rw [choice_set_filter_update]
          rw [List.forall₂_map_right_iff]
          apply List.forall₂_same.mpr
          intro ch hch
          by_cases hcond : (ch.question_id == q.id && ch.id == cid) = true
          · rw [if_pos hcond]
            rw [Bool.and_eq_true] at hcond
            exact ⟨rfl, rfl, rfl, Or.inr ⟨rfl, qid, cid, q, rfl, hfind,
              by simpa using hcond.1, by simpa using hcond.2⟩⟩
          · rw [if_neg hcond]
            exact ⟨rfl, rfl, rfl, Or.inl rfl⟩

end Polls
